import Mathlib

/-!
Verification of the privilege-transition core of the `self_rust_os` kernel.

The Lean definitions below are a shallow embedding of the Rust sources:

* `src/userspace/mod.rs`   — address-space layout constants;
* `src/userspace/syscall.rs` — `sys_write`, `syscall_dispatch`, sentinels,
  `register_syscall_handler`;
* `src/userspace/process.rs` — `map_user_binary`, `map_user_stack`, `run`,
  `switch_to_user_mode`;
* `src/memory.rs`          — `BootInfoFrameAllocator`;
* `src/interrupts.rs` and `src/gdt.rs` — the interrupt-table configuration.

Machine integers (`u64`, `usize`) are modelled as `Nat`; the only operation in
the sources whose overflow behaviour matters is `u64::saturating_add`, which is
modelled explicitly by `saturating_add`.  Fallible operations return `Option`
or a three-way `Outcome` (success / `Err(&str)` / panic).
-/

namespace SelfRustOS

/-! ### Constants from `src/userspace/mod.rs` -/

/-- Base virtual address where user program code is loaded (`0x40_0000`). -/
def USER_CODE_START : Nat := 0x400000

/-- Top of the user-mode stack (`0x80_0000`; the stack grows downward). -/
def USER_STACK_TOP : Nat := 0x800000

/-- Size of the user-mode stack in bytes (16 KiB). -/
def USER_STACK_SIZE : Nat := 4096 * 4

/-- Bottom of the user-mode stack. -/
def USER_STACK_BOTTOM : Nat := USER_STACK_TOP - USER_STACK_SIZE

/-- Interrupt vector number used for syscalls (`int 0x80`). -/
def SYSCALL_INTERRUPT_INDEX : Nat := 0x80

/-! ### Constants from `src/userspace/syscall.rs` -/

/-- Largest value of a `u64`; the Rust sources compute with `u64` arithmetic. -/
def U64_MAX : Nat := 2 ^ 64 - 1

/-- Syscall number for `sys_exit`. -/
def SYS_EXIT : Nat := 0

/-- Syscall number for `sys_write`. -/
def SYS_WRITE : Nat := 1

/-- Sentinel returned by `syscall_dispatch` to signal process exit
(`u64::MAX` in the source). -/
def PROCESS_EXIT_SENTINEL : Nat := U64_MAX

/-- Error value returned to the user program (`u64::MAX - 1` in the source). -/
def SYSCALL_ERROR : Nat := U64_MAX - 1

/-- Rust `u64::saturating_add`: addition capped at `u64::MAX`. -/
def saturating_add (a b : Nat) : Nat := min (a + b) U64_MAX

/-- Embedding of `sys_write` (`src/userspace/syscall.rs`, lines 203-239).

The source binds `buf_end = buf_ptr.saturating_add(len)` and rejects when
`buf_ptr < USER_CODE_START || buf_end > USER_STACK_TOP || buf_end < buf_ptr`;
the embedding inlines `buf_end`.  On the success path the source decodes the
bytes as UTF-8 and prints either the decoded string or a byte-by-byte
rendering; *both* branches of that `match` return `len`, and printing is an
external collaborator with no effect on the result, so the embedding returns
`len` directly. -/
def sys_write (buf_ptr len : Nat) : Nat :=
  if buf_ptr < USER_CODE_START ∨ saturating_add buf_ptr len > USER_STACK_TOP ∨
      saturating_add buf_ptr len < buf_ptr then
    SYSCALL_ERROR
  else
    len

/-- Embedding of `syscall_dispatch` (`src/userspace/syscall.rs`, lines 177-191).
The logging macros are external collaborators and do not affect the result. -/
def syscall_dispatch (num arg1 arg2 _arg3 : Nat) : Nat :=
  if num = SYS_EXIT then
    PROCESS_EXIT_SENTINEL
  else if num = SYS_WRITE then
    sys_write arg1 arg2
  else
    SYSCALL_ERROR

/-! ### Claims C2, C3, C7, C10 -/

/-- Whenever `sys_write` does not take the error path, its result is the
length, which the range check bounds by `USER_STACK_TOP`.  Shared by the
theorems for C2 and C3. -/
theorem sys_write_le_or_error (buf_ptr len : Nat) :
    sys_write buf_ptr len = SYSCALL_ERROR ∨
      (sys_write buf_ptr len = len ∧ len ≤ USER_STACK_TOP) := by
  unfold sys_write saturating_add USER_CODE_START USER_STACK_TOP U64_MAX
  split
  · exact Or.inl rfl
  · rename_i h
    refine Or.inr ⟨rfl, ?_⟩
    rw [not_or, not_or] at h
    omega

/-- C2: for every `ptr` and `len` (as `u64` values), `sys_write ptr len`
returns the error sentinel exactly when the byte range `[ptr, ptr+len)` is not
fully contained in the user window — endpoint containment:
`USER_CODE_START ≤ ptr` and `ptr + len ≤ USER_STACK_TOP` — or when `ptr + len`
overflows `u64`; otherwise it returns `len`.  The sum `ptr + len` here is exact
(`Nat`) arithmetic, so the overflow case is `ptr + len > U64_MAX`.  The result
does not depend on whether the bytes decode as UTF-8 (both decode branches of
the source return `len`; see `sys_write`). -/
theorem C2_sys_write_range_check (ptr len : Nat)
    (hp : ptr ≤ U64_MAX) (hl : len ≤ U64_MAX) :
    (sys_write ptr len = SYSCALL_ERROR ↔
      ¬(USER_CODE_START ≤ ptr ∧ ptr + len ≤ USER_STACK_TOP) ∨ ptr + len > U64_MAX)
    ∧ ((USER_CODE_START ≤ ptr ∧ ptr + len ≤ USER_STACK_TOP ∧ ptr + len ≤ U64_MAX) →
      sys_write ptr len = len) := by
  have hsent : SYSCALL_ERROR = 2 ^ 64 - 1 - 1 := rfl
  unfold sys_write saturating_add
  rw [hsent]
  unfold USER_CODE_START USER_STACK_TOP U64_MAX at *
  constructor
  · constructor
    · intro h
      split at h
      · rename_i hc
        omega
      · omega
    · intro h
      split
      · rfl
      · rename_i hc
        rw [not_or, not_or] at hc
        omega
  · intro h
    split
    · rename_i hc
      omega
    · rfl

/-- Witness for C2 at the concrete input `ptr = USER_CODE_START`, `len = 16`
(an in-window buffer), where `sys_write` returns `16`; also records the error
sentinel at the claim's particular inputs `(0, 1)` and
`(USER_CODE_START, u64::MAX)`. -/
theorem C2_sys_write_range_check_witness :
    (USER_CODE_START ≤ U64_MAX ∧ (16 : Nat) ≤ U64_MAX) ∧
      sys_write USER_CODE_START 16 = 16 ∧
      sys_write 0 1 = SYSCALL_ERROR ∧
      sys_write USER_CODE_START U64_MAX = SYSCALL_ERROR :=
  ⟨⟨by decide, by decide⟩,
    (C2_sys_write_range_check USER_CODE_START 16 (by decide) (by decide)).2
      ⟨by decide, by decide, by decide⟩,
    ((C2_sys_write_range_check 0 1 (by decide) (by decide)).1).2
      (Or.inl (by decide)),
    ((C2_sys_write_range_check USER_CODE_START U64_MAX (by decide) (by decide)).1).2
      (Or.inl (by decide))⟩

/-- C3: `syscall_dispatch` returns the process-exit sentinel exactly when the
syscall number is `SYS_EXIT = 0`; every number other than `0` and `1` returns
the error sentinel, which differs from the exit sentinel; and no value
`sys_write` can return (its error sentinel or any success value) equals the
exit sentinel. -/
theorem C3_dispatch_exit_sentinel (num arg1 arg2 arg3 : Nat) :
    (syscall_dispatch num arg1 arg2 arg3 = PROCESS_EXIT_SENTINEL ↔ num = SYS_EXIT)
    ∧ (num ≠ SYS_EXIT → num ≠ SYS_WRITE →
        syscall_dispatch num arg1 arg2 arg3 = SYSCALL_ERROR)
    ∧ SYSCALL_ERROR ≠ PROCESS_EXIT_SENTINEL
    ∧ (∀ p l : Nat, sys_write p l ≠ PROCESS_EXIT_SENTINEL) := by
  have hne : SYSCALL_ERROR ≠ PROCESS_EXIT_SENTINEL := by
    unfold SYSCALL_ERROR PROCESS_EXIT_SENTINEL U64_MAX
    decide
  have hw : ∀ p l : Nat, sys_write p l ≠ PROCESS_EXIT_SENTINEL := by
    intro p l h
    rcases sys_write_le_or_error p l with he | ⟨hv, hle⟩
    · rw [h] at he
      exact hne he.symm
    · rw [hv] at h
      rw [h] at hle
      revert hle
      unfold PROCESS_EXIT_SENTINEL USER_STACK_TOP U64_MAX
      decide
  refine ⟨?_, ?_, hne, hw⟩
  · unfold syscall_dispatch
    constructor
    · intro h
      split at h
      · assumption
      · split at h
        · exact absurd h (hw arg1 arg2)
        · exact absurd h hne
    · intro h
      rw [if_pos h]
  · intro h0 h1
    unfold syscall_dispatch
    rw [if_neg h0, if_neg h1]

/-- Witness for C3: the dispatcher at the concrete unknown syscall number `999`
returns the error sentinel, which is not the exit sentinel. -/
theorem C3_dispatch_exit_sentinel_witness :
    ((999 : Nat) ≠ SYS_EXIT ∧ (999 : Nat) ≠ SYS_WRITE) ∧
      syscall_dispatch 999 1 2 3 = SYSCALL_ERROR ∧
      SYSCALL_ERROR ≠ PROCESS_EXIT_SENTINEL :=
  ⟨⟨by decide, by decide⟩,
    (C3_dispatch_exit_sentinel 999 1 2 3).2.1 (by decide) (by decide),
    (C3_dispatch_exit_sentinel 999 1 2 3).2.2.1⟩

/-- C7: the user address-space layout constants are consistent:
`USER_STACK_BOTTOM + USER_STACK_SIZE = USER_STACK_TOP`, all three stack
boundaries are multiples of 4096, and `USER_CODE_START` is a multiple of 4096
strictly below `USER_STACK_BOTTOM`. -/
theorem C7_layout_constants :
    USER_STACK_BOTTOM + USER_STACK_SIZE = USER_STACK_TOP
    ∧ USER_STACK_BOTTOM % 4096 = 0
    ∧ USER_STACK_TOP % 4096 = 0
    ∧ USER_STACK_SIZE % 4096 = 0
    ∧ USER_CODE_START % 4096 = 0
    ∧ USER_CODE_START < USER_STACK_BOTTOM := by
  unfold USER_STACK_BOTTOM USER_STACK_TOP USER_STACK_SIZE USER_CODE_START
  decide

/-- C10: a zero-length write anywhere in the user window succeeds: for every
`ptr` with `USER_CODE_START ≤ ptr ≤ USER_STACK_TOP`, `sys_write ptr 0`
returns `0`, not the error sentinel. -/
theorem C10_sys_write_zero_len (ptr : Nat)
    (h1 : USER_CODE_START ≤ ptr) (h2 : ptr ≤ USER_STACK_TOP) :
    sys_write ptr 0 = 0 := by
  unfold sys_write saturating_add
  unfold USER_CODE_START USER_STACK_TOP U64_MAX at *
  rw [if_neg]
  omega

/-- Witness for C10 at the boundary input `ptr = USER_STACK_TOP`. -/
theorem C10_sys_write_zero_len_witness :
    (USER_CODE_START ≤ USER_STACK_TOP ∧ USER_STACK_TOP ≤ USER_STACK_TOP) ∧
      sys_write USER_STACK_TOP 0 = 0 :=
  ⟨⟨by decide, by decide⟩,
    C10_sys_write_zero_len USER_STACK_TOP (by decide) (by decide)⟩

/-! ### Frame allocation (`src/memory.rs`) -/

/-- Region classification from the bootloader memory map; the source checks
`region_type == MemoryRegionType::Usable`, so all other variants are collapsed
into `Other`. -/
inductive MemoryRegionType where
  | Usable
  | Other
  deriving DecidableEq

/-- A bootloader memory-map region.  The bootloader's `MemoryRegion.range` is
a `FrameRange`, which stores 4 KiB *frame numbers*, not byte addresses, so a
region's byte bounds are multiples of 4096 by construction. -/
structure MemoryRegion where
  start_frame_number : Nat
  end_frame_number : Nat
  region_type : MemoryRegionType
  deriving DecidableEq

/-- `FrameRange::start_addr()`: `start_frame_number * 4096`. -/
def MemoryRegion.start_addr (r : MemoryRegion) : Nat :=
  r.start_frame_number * 4096

/-- `FrameRange::end_addr()`: `end_frame_number * 4096`. -/
def MemoryRegion.end_addr (r : MemoryRegion) : Nat :=
  r.end_frame_number * 4096

theorem MemoryRegion.start_addr_aligned (r : MemoryRegion) :
    r.start_addr % 4096 = 0 := by
  unfold MemoryRegion.start_addr
  omega

/-- Rust `(s..e).step_by(4096)`: the addresses `s, s + 4096, …` below `e`. -/
def step_by_4096 (s e : Nat) : List Nat :=
  (List.range ((e - s + 4095) / 4096)).map fun k => s + 4096 * k

/-- Embedding of `BootInfoFrameAllocator::usable_frames`
(`src/memory.rs`, lines 60-66): filter the map to usable regions, enumerate
their ranges in 4096-byte steps, and take the frame containing each address
(`PhysFrame::containing_address` aligns down to a 4096 multiple). -/
def usable_frames (memory_map : List MemoryRegion) : List Nat :=
  (((memory_map.filter fun r =>
        decide (r.region_type = MemoryRegionType.Usable)).map
      fun r => step_by_4096 r.start_addr r.end_addr).flatten).map
    fun addr => addr / 4096 * 4096

/-- Embedding of the `BootInfoFrameAllocator` state
(`src/memory.rs`, lines 41-58). -/
structure BootInfoFrameAllocator where
  memory_map : List MemoryRegion
  next : Nat

/-- Embedding of `BootInfoFrameAllocator::allocate_frame`
(`src/memory.rs`, lines 74-80): serve the `next`-th element of the usable-frame
sequence and advance the cursor (also on failure, as in the source). -/
def allocate_frame (a : BootInfoFrameAllocator) :
    Option Nat × BootInfoFrameAllocator :=
  ((usable_frames a.memory_map).get? a.next, { a with next := a.next + 1 })

/-- The allocator state after `n` calls to `allocate_frame`, starting from a
fresh allocator over `memory_map` (as built by `BootInfoFrameAllocator::new`).
-/
def nth_call (memory_map : List MemoryRegion) : Nat → BootInfoFrameAllocator
  | 0 => ⟨memory_map, 0⟩
  | n + 1 => (allocate_frame (nth_call memory_map n)).2

theorem nth_call_eq (memory_map : List MemoryRegion) (n : Nat) :
    nth_call memory_map n = ⟨memory_map, n⟩ := by
  induction n with
  | zero => rfl
  | succ n ih => simp [nth_call, allocate_frame, ih]

/-- The usable regions of the map have pairwise disjoint address ranges. -/
def UsableDisjoint (memory_map : List MemoryRegion) : Prop :=
  memory_map.Pairwise fun r1 r2 =>
    r1.region_type = MemoryRegionType.Usable →
      r2.region_type = MemoryRegionType.Usable →
        r1.end_addr ≤ r2.start_addr ∨ r2.end_addr ≤ r1.start_addr

theorem mem_step_by_4096 {s e a : Nat} (h : a ∈ step_by_4096 s e) :
    s ≤ a ∧ a < e ∧ a % 4096 = s % 4096 := by
  unfold step_by_4096 at h
  rcases List.mem_map.1 h with ⟨k, hk, rfl⟩
  have := List.mem_range.1 hk
  omega

theorem map_align_id {l : List Nat} (h : ∀ x ∈ l, x % 4096 = 0) :
    l.map (fun a => a / 4096 * 4096) = l := by
  rw [List.map_congr_left (g := fun a => a) fun a ha => by
    show a / 4096 * 4096 = a
    have := h a ha
    omega]
  exact List.map_id' l

theorem nodup_step_by_4096 (s e : Nat) : (step_by_4096 s e).Nodup := by
  unfold step_by_4096
  exact (List.nodup_range _).map fun a b hab => by omega

/-- With pairwise-disjoint usable regions, the usable-frame sequence contains
no duplicates (region bounds are 4096-aligned by construction). -/
theorem usable_frames_nodup {memory_map : List MemoryRegion}
    (hdisj : UsableDisjoint memory_map) :
    (usable_frames memory_map).Nodup := by
  unfold usable_frames
  rw [List.map_flatten, List.map_map]
  have husable : ∀ r ∈ memory_map.filter
      (fun r => decide (r.region_type = MemoryRegionType.Usable)),
      r.region_type = MemoryRegionType.Usable := by
    intro r hr
    exact of_decide_eq_true (List.mem_filter.1 hr).2
  have haf : ∀ r ∈ memory_map.filter
      (fun r => decide (r.region_type = MemoryRegionType.Usable)),
      (List.map (fun a => a / 4096 * 4096) ∘
        fun r => step_by_4096 r.start_addr r.end_addr) r =
        step_by_4096 r.start_addr r.end_addr := by
    intro r hr
    have hs : r.start_addr % 4096 = 0 := r.start_addr_aligned
    exact map_align_id fun x hx => by
      have := mem_step_by_4096 hx
      omega
  rw [List.map_congr_left haf]
  rw [List.nodup_flatten]
  constructor
  · intro l hl
    rcases List.mem_map.1 hl with ⟨r, _, rfl⟩
    exact nodup_step_by_4096 _ _
  · rw [List.pairwise_map]
    have hp : (memory_map.filter
        (fun r => decide (r.region_type = MemoryRegionType.Usable))).Pairwise
        fun r1 r2 =>
          r1.region_type = MemoryRegionType.Usable →
            r2.region_type = MemoryRegionType.Usable →
              r1.end_addr ≤ r2.start_addr ∨ r2.end_addr ≤ r1.start_addr :=
      List.Pairwise.sublist (List.filter_sublist _) hdisj
    refine hp.imp_of_mem ?_
    intro r1 r2 h1 h2 hr
    have hd := hr (husable r1 h1) (husable r2 h2)
    intro a ha1 ha2
    have hb1 := mem_step_by_4096 ha1
    have hb2 := mem_step_by_4096 ha2
    omega

/-- Every address in the usable-frame sequence lies inside a usable region
(region bounds are 4096-aligned by construction). -/
theorem usable_frames_mem {memory_map : List MemoryRegion} {f : Nat}
    (hf : f ∈ usable_frames memory_map) :
    ∃ r ∈ memory_map, r.region_type = MemoryRegionType.Usable ∧
      r.start_addr ≤ f ∧ f < r.end_addr := by
  unfold usable_frames at hf
  rcases List.mem_map.1 hf with ⟨a, ha, rfl⟩
  rcases List.mem_flatten.1 ha with ⟨l, hl, hal⟩
  rcases List.mem_map.1 hl with ⟨r, hr, rfl⟩
  have hrt : r.region_type = MemoryRegionType.Usable :=
    of_decide_eq_true (List.mem_filter.1 hr).2
  have hmem : r ∈ memory_map := (List.mem_filter.1 hr).1
  have hs : r.start_addr % 4096 = 0 := r.start_addr_aligned
  have hb := mem_step_by_4096 hal
  refine ⟨r, hmem, hrt, ?_, ?_⟩ <;> omega

/-- Shared core of the C5 theorems: at distinct cursor positions the allocator
never returns the same frame, given pairwise-disjoint usable regions. -/
theorem usable_frames_get?_ne {memory_map : List MemoryRegion}
    (hdisj : UsableDisjoint memory_map)
    {i j fi fj : Nat} (hij : i ≠ j)
    (hi : (usable_frames memory_map).get? i = some fi)
    (hj : (usable_frames memory_map).get? j = some fj) : fi ≠ fj := by
  intro hEq
  subst hEq
  have hlen : i < (usable_frames memory_map).length := by
    rcases List.get?_eq_some.1 hi with ⟨h, _⟩
    exact h
  rw [List.get?_eq_getElem?] at hi hj
  exact hij (List.getElem?_inj hlen
    (usable_frames_nodup hdisj) (hi.trans hj.symm))

/-- A memory map holding the usable frame range `[0, 1)` twice.  The
bootloader type makes region bounds 4096-aligned (frame numbers), but nothing
deduplicates regions or checks them for overlap, and `BootInfoFrameAllocator`
accepts the map unchecked. -/
def cex_memory_map : List MemoryRegion :=
  [⟨0, 1, MemoryRegionType.Usable⟩, ⟨0, 1, MemoryRegionType.Usable⟩]

/-- C5 counterexample: on the memory map `cex_memory_map` the first two calls
to `allocate_frame` both yield frame address `0` — the same frame twice —
refuting the claim as stated, which quantifies over *every* memory map. -/
theorem C5_counterexample :
    (allocate_frame (nth_call cex_memory_map 0)).1 = some 0 ∧
    (allocate_frame (nth_call cex_memory_map 1)).1 = some 0 :=
  ⟨rfl, rfl⟩

/-- C5 (amended): for every memory map whose usable regions have pairwise
disjoint address ranges, `BootInfoFrameAllocator::allocate_frame` never
yields the same frame address at two distinct calls, and every frame it
yields lies inside a usable region of the map. -/
theorem C5_allocator_unique_and_usable (memory_map : List MemoryRegion)
    (hdisj : UsableDisjoint memory_map) :
    (∀ i j fi fj, i ≠ j →
        (allocate_frame (nth_call memory_map i)).1 = some fi →
        (allocate_frame (nth_call memory_map j)).1 = some fj → fi ≠ fj)
    ∧ (∀ i f, (allocate_frame (nth_call memory_map i)).1 = some f →
        ∃ r ∈ memory_map, r.region_type = MemoryRegionType.Usable ∧
          r.start_addr ≤ f ∧ f < r.end_addr) := by
  constructor
  · intro i j fi fj hij hi hj
    rw [nth_call_eq] at hi hj
    unfold allocate_frame at hi hj
    exact usable_frames_get?_ne hdisj hij hi hj
  · intro i f hf
    rw [nth_call_eq] at hf
    unfold allocate_frame at hf
    exact usable_frames_mem (List.get?_mem hf)

/-- A well-formed memory map: disjoint usable frame ranges `[0, 2)` and
`[16, 17)` plus one non-usable range. -/
def witness_memory_map : List MemoryRegion :=
  [⟨0, 2, MemoryRegionType.Usable⟩,
   ⟨16, 17, MemoryRegionType.Usable⟩,
   ⟨2, 3, MemoryRegionType.Other⟩]

/-- Witness for the amended C5 on the concrete map `witness_memory_map`: its
first two allocations are `0` and `4096`, which the theorem proves distinct,
and its first allocation lies in a usable region. -/
theorem C5_allocator_unique_and_usable_witness :
    UsableDisjoint witness_memory_map ∧
      (allocate_frame (nth_call witness_memory_map 0)).1 = some 0 ∧
      (allocate_frame (nth_call witness_memory_map 1)).1 = some 4096 ∧
      (0 : Nat) ≠ 4096 ∧
      (∃ r ∈ witness_memory_map, r.region_type = MemoryRegionType.Usable ∧
        r.start_addr ≤ 0 ∧ 0 < r.end_addr) :=
  ⟨by unfold UsableDisjoint; decide, rfl, rfl,
    (C5_allocator_unique_and_usable witness_memory_map
      (by unfold UsableDisjoint; decide)).1 0 1 0 4096 (by decide) rfl rfl,
    (C5_allocator_unique_and_usable witness_memory_map
      (by unfold UsableDisjoint; decide)).2 0 0 rfl⟩

/-! ### Process loading (`src/userspace/process.rs`)

The loader is generic over a `Mapper<Size4KiB>` and a
`FrameAllocator<Size4KiB>`.  The embedding models their combined state as a
`Machine`: the page table as partial maps from page base address to flags and
to the backing frame, the user-visible virtual memory as a byte function, the
allocator as an oracle `alloc : Nat → Option Nat` (the result of the n-th
`allocate_frame` call) together with a call cursor, and `map_to` failures that
do not stem from an already-mapped page (e.g. exhaustion while allocating
intermediate page-table frames inside the x86_64 crate) as an oracle
`mapFail : Nat → Bool` indexed by the page address.  The `switched` flag
records whether `switch_to_user_mode` has been invoked. -/

/-- `PageTableFlags::PRESENT` bit of the x86_64 crate. -/
def PRESENT : Nat := 1

/-- `PageTableFlags::WRITABLE` bit of the x86_64 crate. -/
def WRITABLE : Nat := 2

/-- `PageTableFlags::USER_ACCESSIBLE` bit of the x86_64 crate. -/
def USER_ACCESSIBLE : Nat := 4

/-- `PRESENT | WRITABLE | USER_ACCESSIBLE`, the loader's phase-1 flags
(also used for the user stack). -/
def writable_flags : Nat := PRESENT ||| WRITABLE ||| USER_ACCESSIBLE

/-- `PRESENT | USER_ACCESSIBLE`, the loader's phase-2 read-only flags. -/
def readonly_flags : Nat := PRESENT ||| USER_ACCESSIBLE

/-- Combined state of the page-table mapper, virtual memory, frame-allocator
cursor, and the privilege-transition flag. -/
structure Machine where
  pageFlags : Nat → Option Nat
  pageFrame : Nat → Option Nat
  mem : Nat → Nat
  cursor : Nat
  switched : Bool

/-- Result of a loader operation: success, a Rust `Err(&'static str)`, or a
Rust panic (from `assert!`).  Each constructor carries the machine state at
that point. -/
inductive Outcome where
  | ok : Machine → Outcome
  | err : String → Machine → Outcome
  | panicked : String → Machine → Outcome

/-- The machine state carried by an outcome. -/
def out_state : Outcome → Machine
  | .ok m => m
  | .err _ m => m
  | .panicked _ m => m

/-- Whether an outcome is a success. -/
def isOk : Outcome → Bool
  | .ok _ => true
  | _ => false

/-- `self.next += 1` inside `allocate_frame`: the cursor advances on every
call, whether or not a frame is returned. -/
def bump (m : Machine) : Machine := { m with cursor := m.cursor + 1 }

/-- Embedding of `Mapper::map_to` + `flush` for a 4 KiB page: fails if the
page is already mapped or if the failure oracle fires; otherwise records the
page's flags and backing frame. -/
def map_to (mapFail : Nat → Bool) (page frame flags : Nat) (m : Machine) :
    Option Machine :=
  if (m.pageFlags page).isSome || mapFail page then
    none
  else
    some { m with
      pageFlags := fun p => if p = page then some flags else m.pageFlags p,
      pageFrame := fun p => if p = page then some frame else m.pageFrame p }

/-- Embedding of `Mapper::update_flags` + `flush`: fails if the page is not
mapped; otherwise replaces its flags. -/
def update_flags (page flags : Nat) (m : Machine) : Option Machine :=
  if (m.pageFlags page).isSome then
    some { m with
      pageFlags := fun p => if p = page then some flags else m.pageFlags p }
  else
    none

/-- `core::ptr::copy_nonoverlapping(src, dest, count)`: writes `src j` to
virtual address `dest + j` for `j < count`. -/
def copy_nonoverlapping (src : Nat → Nat) (dest count : Nat) (m : Machine) :
    Machine :=
  { m with
    mem := fun a => if dest ≤ a ∧ a < dest + count then src (a - dest)
      else m.mem a }

/-- `core::ptr::write_bytes(dest, val, count)`. -/
def write_bytes (dest val count : Nat) (m : Machine) : Machine :=
  { m with
    mem := fun a => if dest ≤ a ∧ a < dest + count then val else m.mem a }

/-- One iteration of phase 1 of `map_user_binary`
(`src/userspace/process.rs`, lines 131-182), for page index `i`: allocate a
frame, map the page writable, copy the binary's bytes for this page
(`binary[page_start..page_end]` with `page_end = min(page_start + 4096, len)`),
zero the tail of a partially covered page, and zero-fill a page beyond the
binary entirely. -/
def map_binary_page (binary : List Nat) (alloc : Nat → Option Nat)
    (mapFail : Nat → Bool) (i : Nat) (m : Machine) : Outcome :=
  match alloc m.cursor with
  | none => .err "failed to allocate frame for user binary" (bump m)
  | some frame =>
    match map_to mapFail (USER_CODE_START + i * 4096) frame writable_flags
        (bump m) with
    | none => .err "failed to map user binary page" (bump m)
    | some m2 =>
      if i * 4096 < binary.length then
        if min (i * 4096 + 4096) binary.length - i * 4096 < 4096 then
          .ok (write_bytes
            (USER_CODE_START + i * 4096 +
              (min (i * 4096 + 4096) binary.length - i * 4096))
            0 (4096 - (min (i * 4096 + 4096) binary.length - i * 4096))
            (copy_nonoverlapping (fun j => binary.getD (i * 4096 + j) 0)
              (USER_CODE_START + i * 4096)
              (min (i * 4096 + 4096) binary.length - i * 4096) m2))
        else
          .ok (copy_nonoverlapping (fun j => binary.getD (i * 4096 + j) 0)
            (USER_CODE_START + i * 4096)
            (min (i * 4096 + 4096) binary.length - i * 4096) m2)
      else
        .ok (write_bytes (USER_CODE_START + i * 4096) 0 4096 m2)

/-- Phase 1 of `map_user_binary`: `for i in 0..num_pages { … }`, written as a
recursion on the number `n` of remaining iterations starting at index `i`. -/
def map_binary_pages (binary : List Nat) (alloc : Nat → Option Nat)
    (mapFail : Nat → Bool) : Nat → Nat → Machine → Outcome
  | _, 0, m => .ok m
  | i, n + 1, m =>
    match map_binary_page binary alloc mapFail i m with
    | .ok m2 => map_binary_pages binary alloc mapFail (i + 1) n m2
    | e => e

/-- Phase 2 of `map_user_binary` (`src/userspace/process.rs`, lines 189-202):
`for i in 0..min(readonly_pages, num_pages)`, clear `WRITABLE` via
`update_flags`; written as a recursion on the remaining count `n` starting at
index `i`. -/
def set_readonly_pages : Nat → Nat → Machine → Outcome
  | _, 0, m => .ok m
  | i, n + 1, m =>
    match update_flags (USER_CODE_START + i * 4096) readonly_flags m with
    | some m2 => set_readonly_pages (i + 1) n m2
    | none => .err "failed to update flags for read-only page" m

/-- Embedding of `map_user_binary` (`src/userspace/process.rs`, lines
112-220): assert that `readonly_size` is page-aligned (a non-aligned size
panics), run phase 1 over `num_pages = (len + 4095) / 4096` pages, then
phase 2 over `min(readonly_pages, num_pages)` pages with
`readonly_pages = readonly_size / 4096`. -/
def map_user_binary (binary : List Nat) (readonly_size : Nat)
    (alloc : Nat → Option Nat) (mapFail : Nat → Bool) (m : Machine) :
    Outcome :=
  if readonly_size % 4096 ≠ 0 then
    .panicked "readonly_size must be page-aligned" m
  else
    match map_binary_pages binary alloc mapFail 0
        ((binary.length + 4095) / 4096) m with
    | .ok m1 =>
      set_readonly_pages 0
        (min (readonly_size / 4096) ((binary.length + 4095) / 4096)) m1
    | e => e

/-- One iteration of `map_user_stack` (`src/userspace/process.rs`, lines
235-261): allocate a frame, map the stack page writable, zero-fill it. -/
def map_stack_page (alloc : Nat → Option Nat) (mapFail : Nat → Bool)
    (i : Nat) (m : Machine) : Outcome :=
  match alloc m.cursor with
  | none => .err "failed to allocate frame for user stack" (bump m)
  | some frame =>
    match map_to mapFail (USER_STACK_BOTTOM + i * 4096) frame writable_flags
        (bump m) with
    | none => .err "failed to map user stack page" (bump m)
    | some m2 => .ok (write_bytes (USER_STACK_BOTTOM + i * 4096) 0 4096 m2)

/-- The loop of `map_user_stack`, recursion on the remaining count. -/
def map_stack_pages (alloc : Nat → Option Nat) (mapFail : Nat → Bool) :
    Nat → Nat → Machine → Outcome
  | _, 0, m => .ok m
  | i, n + 1, m =>
    match map_stack_page alloc mapFail i m with
    | .ok m2 => map_stack_pages alloc mapFail (i + 1) n m2
    | e => e

/-- Embedding of `map_user_stack` (`src/userspace/process.rs`, lines
225-277): map `USER_STACK_SIZE / 4096` zero-filled writable pages starting at
`USER_STACK_BOTTOM`. -/
def map_user_stack (alloc : Nat → Option Nat) (mapFail : Nat → Bool)
    (m : Machine) : Outcome :=
  map_stack_pages alloc mapFail 0 (USER_STACK_SIZE / 4096) m

/-- Embedding of the observable effect of `switch_to_user_mode`
(`src/userspace/process.rs`, lines 304-370): the privilege transition is
performed; register-level behaviour is outside the state model. -/
def switch_to_user_mode (m : Machine) : Machine := { m with switched := true }

/-- Embedding of `process::run` (`src/userspace/process.rs`, lines 55-96):
map the binary, map the stack, and only then perform the privilege
transition; `Ok(())` is returned after `switch_to_user_mode` has returned
control.  Logging is an external collaborator.  Errors and panics propagate
(`?` and `assert!`). -/
def run (binary : List Nat) (readonly_size : Nat) (alloc : Nat → Option Nat)
    (mapFail : Nat → Bool) (m : Machine) : Outcome :=
  match map_user_binary binary readonly_size alloc mapFail m with
  | .ok m1 =>
    match map_user_stack alloc mapFail m1 with
    | .ok m2 => .ok (switch_to_user_mode m2)
    | e => e
  | e => e

/-! ### Field-projection lemmas for the machine operations -/

@[simp] theorem bump_pageFlags (m : Machine) : (bump m).pageFlags = m.pageFlags := rfl

@[simp] theorem bump_pageFrame (m : Machine) : (bump m).pageFrame = m.pageFrame := rfl

@[simp] theorem bump_mem (m : Machine) : (bump m).mem = m.mem := rfl

@[simp] theorem bump_cursor (m : Machine) : (bump m).cursor = m.cursor + 1 := rfl

@[simp] theorem bump_switched (m : Machine) : (bump m).switched = m.switched := rfl

@[simp] theorem write_bytes_mem (dest val count : Nat) (m : Machine) (a : Nat) :
    (write_bytes dest val count m).mem a =
      if dest ≤ a ∧ a < dest + count then val else m.mem a := rfl

@[simp] theorem write_bytes_pageFlags (dest val count : Nat) (m : Machine) :
    (write_bytes dest val count m).pageFlags = m.pageFlags := rfl

@[simp] theorem write_bytes_pageFrame (dest val count : Nat) (m : Machine) :
    (write_bytes dest val count m).pageFrame = m.pageFrame := rfl

@[simp] theorem write_bytes_cursor (dest val count : Nat) (m : Machine) :
    (write_bytes dest val count m).cursor = m.cursor := rfl

@[simp] theorem write_bytes_switched (dest val count : Nat) (m : Machine) :
    (write_bytes dest val count m).switched = m.switched := rfl

@[simp] theorem copy_nonoverlapping_mem (src : Nat → Nat) (dest count : Nat)
    (m : Machine) (a : Nat) :
    (copy_nonoverlapping src dest count m).mem a =
      if dest ≤ a ∧ a < dest + count then src (a - dest) else m.mem a := rfl

@[simp] theorem copy_nonoverlapping_pageFlags (src : Nat → Nat)
    (dest count : Nat) (m : Machine) :
    (copy_nonoverlapping src dest count m).pageFlags = m.pageFlags := rfl

@[simp] theorem copy_nonoverlapping_pageFrame (src : Nat → Nat)
    (dest count : Nat) (m : Machine) :
    (copy_nonoverlapping src dest count m).pageFrame = m.pageFrame := rfl

@[simp] theorem copy_nonoverlapping_cursor (src : Nat → Nat)
    (dest count : Nat) (m : Machine) :
    (copy_nonoverlapping src dest count m).cursor = m.cursor := rfl

@[simp] theorem copy_nonoverlapping_switched (src : Nat → Nat)
    (dest count : Nat) (m : Machine) :
    (copy_nonoverlapping src dest count m).switched = m.switched := rfl

@[simp] theorem switch_to_user_mode_switched (m : Machine) :
    (switch_to_user_mode m).switched = true := rfl

@[simp] theorem switch_to_user_mode_pageFlags (m : Machine) :
    (switch_to_user_mode m).pageFlags = m.pageFlags := rfl

theorem map_to_some {mapFail : Nat → Bool} {page frame flags : Nat}
    {m m' : Machine} (h : map_to mapFail page frame flags m = some m') :
    m'.pageFlags = (fun p => if p = page then some flags else m.pageFlags p)
    ∧ m'.pageFrame = (fun p => if p = page then some frame else m.pageFrame p)
    ∧ m'.mem = m.mem ∧ m'.cursor = m.cursor ∧ m'.switched = m.switched := by
  unfold map_to at h
  split at h
  · exact Option.noConfusion h
  · injection h with h
    subst h
    exact ⟨rfl, rfl, rfl, rfl, rfl⟩

theorem update_flags_some {page flags : Nat} {m m' : Machine}
    (h : update_flags page flags m = some m') :
    m'.pageFlags = (fun p => if p = page then some flags else m.pageFlags p)
    ∧ m'.pageFrame = m.pageFrame ∧ m'.mem = m.mem ∧ m'.cursor = m.cursor
    ∧ m'.switched = m.switched := by
  unfold update_flags at h
  split at h
  · injection h with h
    subst h
    exact ⟨rfl, rfl, rfl, rfl, rfl⟩
  · exact Option.noConfusion h

/-! ### Characterization of the phase-1 loop -/

/-- One successful phase-1 iteration for page `i`: the page is mapped
writable onto the frame the allocator produced at the pre-call cursor, other
pages are untouched, the page's bytes hold the binary's content (zero beyond
the binary's length, since `List.getD` defaults to `0`), memory outside the
page is untouched, and the cursor advanced once. -/
theorem map_binary_page_ok {binary : List Nat} {alloc : Nat → Option Nat}
    {mapFail : Nat → Bool} {i : Nat} {m m' : Machine}
    (h : map_binary_page binary alloc mapFail i m = .ok m') :
    m'.pageFlags (USER_CODE_START + i * 4096) = some writable_flags
    ∧ m'.pageFrame (USER_CODE_START + i * 4096) = alloc m.cursor
    ∧ (∀ p, p ≠ USER_CODE_START + i * 4096 →
        m'.pageFlags p = m.pageFlags p ∧ m'.pageFrame p = m.pageFrame p)
    ∧ (∀ a, USER_CODE_START + i * 4096 ≤ a →
        a < USER_CODE_START + i * 4096 + 4096 →
        m'.mem a = binary.getD (a - USER_CODE_START) 0)
    ∧ (∀ a, a < USER_CODE_START + i * 4096 ∨
        USER_CODE_START + i * 4096 + 4096 ≤ a → m'.mem a = m.mem a)
    ∧ m'.cursor = m.cursor + 1
    ∧ m'.switched = m.switched := by
  unfold map_binary_page at h
  split at h
  · exact Outcome.noConfusion h
  rename_i frame halloc
  split at h
  · exact Outcome.noConfusion h
  rename_i m2 hm2
  obtain ⟨hf, hfr, hmem, hcur, hsw⟩ := map_to_some hm2
  split at h
  · rename_i hlt
    split at h
    · rename_i hcl
      injection h with h
      subst h
      refine ⟨?_, ?_, ?_, ?_, ?_, ?_, ?_⟩
      · simp [hf]
      · simp [hfr, halloc]
      · intro p hp
        constructor
        · simp [hf, hp]
        · simp [hfr, hp]
      · intro a ha1 ha2
        simp only [write_bytes_mem, copy_nonoverlapping_mem, hmem, bump_mem]
        split
        · rename_i hz
          exact (List.getD_eq_default _ _ (by omega)).symm
        · rename_i hz
          split
          · rename_i hc
            have hidx : i * 4096 + (a - (USER_CODE_START + i * 4096)) =
                a - USER_CODE_START := by omega
            rw [hidx]
          · rename_i hc
            exfalso
            omega
      · intro a ha
        simp only [write_bytes_mem, copy_nonoverlapping_mem, hmem, bump_mem]
        rw [if_neg (by omega), if_neg (by omega)]
      · simp [hcur]
      · simp [hsw]
    · rename_i hcl
      injection h with h
      subst h
      refine ⟨?_, ?_, ?_, ?_, ?_, ?_, ?_⟩
      · simp [hf]
      · simp [hfr, halloc]
      · intro p hp
        constructor
        · simp [hf, hp]
        · simp [hfr, hp]
      · intro a ha1 ha2
        simp only [copy_nonoverlapping_mem, hmem, bump_mem]
        rw [if_pos (by omega)]
        have hidx : i * 4096 + (a - (USER_CODE_START + i * 4096)) =
            a - USER_CODE_START := by omega
        rw [hidx]
      · intro a ha
        simp only [copy_nonoverlapping_mem, hmem, bump_mem]
        rw [if_neg (by omega)]
      · simp [hcur]
      · simp [hsw]
  · rename_i hlt
    injection h with h
    subst h
    refine ⟨?_, ?_, ?_, ?_, ?_, ?_, ?_⟩
    · simp [hf]
    · simp [hfr, halloc]
    · intro p hp
      constructor
      · simp [hf, hp]
      · simp [hfr, hp]
    · intro a ha1 ha2
      simp only [write_bytes_mem, hmem, bump_mem]
      rw [if_pos (by omega)]
      exact (List.getD_eq_default _ _ (by omega)).symm
    · intro a ha
      simp only [write_bytes_mem, hmem, bump_mem]
      rw [if_neg (by omega)]
    · simp [hcur]
    · simp [hsw]

/-- Successful phase-1 run over pages `i, …, i+n-1`: every such page is
mapped writable onto the allocator's successive frames, all other pages are
untouched, the covered address range holds the binary's bytes (with `0`
beyond its length), other addresses are untouched, and the cursor advanced
`n` times. -/
theorem map_binary_pages_ok {binary : List Nat} {alloc : Nat → Option Nat}
    {mapFail : Nat → Bool} :
    ∀ (n i : Nat) (m m' : Machine),
      map_binary_pages binary alloc mapFail i n m = .ok m' →
      (∀ k, i ≤ k → k < i + n →
        m'.pageFlags (USER_CODE_START + k * 4096) = some writable_flags
        ∧ m'.pageFrame (USER_CODE_START + k * 4096) =
            alloc (m.cursor + (k - i)))
      ∧ (∀ p, (∀ k, i ≤ k → k < i + n → p ≠ USER_CODE_START + k * 4096) →
          m'.pageFlags p = m.pageFlags p ∧ m'.pageFrame p = m.pageFrame p)
      ∧ (∀ a, USER_CODE_START + i * 4096 ≤ a →
          a < USER_CODE_START + (i + n) * 4096 →
          m'.mem a = binary.getD (a - USER_CODE_START) 0)
      ∧ (∀ a, a < USER_CODE_START + i * 4096 ∨
          USER_CODE_START + (i + n) * 4096 ≤ a → m'.mem a = m.mem a)
      ∧ m'.cursor = m.cursor + n
      ∧ m'.switched = m.switched := by
  intro n
  induction n with
  | zero =>
    intro i m m' h
    injection h with h
    subst h
    refine ⟨fun k hk1 hk2 => by omega, fun p _ => ⟨rfl, rfl⟩,
      fun a ha1 ha2 => by omega, fun a _ => rfl, by omega, rfl⟩
  | succ n ih =>
    intro i m m' h
    simp only [map_binary_pages] at h
    cases hstep : map_binary_page binary alloc mapFail i m with
    | ok m2 =>
      rw [hstep] at h
      obtain ⟨sf, sfr, spres, smemin, smemout, scur, ssw⟩ :=
        map_binary_page_ok hstep
      obtain ⟨iA, iB, iC, iD, iE, iF⟩ := ih (i + 1) m2 m' h
      refine ⟨?_, ?_, ?_, ?_, ?_, ?_⟩
      · intro k hk1 hk2
        by_cases hki : k = i
        · subst hki
          have hpres := iB (USER_CODE_START + k * 4096)
            (fun k' hk1' hk2' => by omega)
          constructor
          · rw [hpres.1, sf]
          · rw [hpres.2, sfr]
            have : m.cursor + (k - k) = m.cursor := by omega
            rw [this]
        · have := iA k (by omega) (by omega)
          refine ⟨this.1, ?_⟩
          rw [this.2, scur]
          have : m.cursor + 1 + (k - (i + 1)) = m.cursor + (k - i) := by
            omega
          rw [this]
      · intro p hp
        have h1 := iB p (fun k hk1 hk2 => hp k (by omega) (by omega))
        have h2 := spres p (hp i (by omega) (by omega))
        exact ⟨h1.1.trans h2.1, h1.2.trans h2.2⟩
      · intro a ha1 ha2
        by_cases hin : a < USER_CODE_START + (i + 1) * 4096
        · rw [iD a (Or.inl hin)]
          exact smemin a (by omega) (by omega)
        · exact iC a (by omega) (by omega)
      · intro a ha
        rw [iD a (by omega)]
        exact smemout a (by omega)
      · rw [iE, scur]
        omega
      · rw [iF, ssw]
    | err s m2 =>
      rw [hstep] at h
      exact Outcome.noConfusion h
    | panicked s m2 =>
      rw [hstep] at h
      exact Outcome.noConfusion h

/-- Successful phase-2 run over pages `i, …, i+n-1`: those pages' flags
become read-only, all other pages and every other component of the machine
are untouched. -/
theorem set_readonly_pages_ok :
    ∀ (n i : Nat) (m m' : Machine), set_readonly_pages i n m = .ok m' →
      (∀ k, i ≤ k → k < i + n →
        m'.pageFlags (USER_CODE_START + k * 4096) = some readonly_flags)
      ∧ (∀ p, (∀ k, i ≤ k → k < i + n → p ≠ USER_CODE_START + k * 4096) →
          m'.pageFlags p = m.pageFlags p)
      ∧ m'.pageFrame = m.pageFrame ∧ m'.mem = m.mem ∧ m'.cursor = m.cursor
      ∧ m'.switched = m.switched := by
  intro n
  induction n with
  | zero =>
    intro i m m' h
    injection h with h
    subst h
    exact ⟨fun k hk1 hk2 => by omega, fun p _ => rfl, rfl, rfl, rfl, rfl⟩
  | succ n ih =>
    intro i m m' h
    simp only [set_readonly_pages] at h
    cases hupd : update_flags (USER_CODE_START + i * 4096) readonly_flags m
      with
    | some m2 =>
      rw [hupd] at h
      obtain ⟨uf, ufr, umem, ucur, usw⟩ := update_flags_some hupd
      obtain ⟨iA, iB, iC, iD, iE, iF⟩ := ih (i + 1) m2 m' h
      refine ⟨?_, ?_, iC.trans ufr, iD.trans umem, iE.trans ucur,
        iF.trans usw⟩
      · intro k hk1 hk2
        by_cases hki : k = i
        · subst hki
          rw [iB (USER_CODE_START + k * 4096) (fun k' hk1' hk2' => by omega),
            uf]
          simp
        · exact iA k (by omega) (by omega)
      · intro p hp
        rw [iB p (fun k hk1 hk2 => hp k (by omega) (by omega)), uf]
        simp only []
        rw [if_neg (hp i (by omega) (by omega))]
    | none =>
      rw [hupd] at h
      exact Outcome.noConfusion h

/-! ### Preservation facts for C4: no operation unmaps a page, and only
`switch_to_user_mode` sets the `switched` flag -/

/-- Pages mapped in `m` are still mapped in `m'`. -/
def mapped_preserved (m m' : Machine) : Prop :=
  ∀ p, (m.pageFlags p).isSome = true → (m'.pageFlags p).isSome = true

theorem mapped_preserved_trans {m1 m2 m3 : Machine}
    (h1 : mapped_preserved m1 m2) (h2 : mapped_preserved m2 m3) :
    mapped_preserved m1 m3 := fun p hp => h2 p (h1 p hp)

theorem map_to_preserves {mapFail : Nat → Bool} {page frame flags : Nat}
    {m m2 : Machine} (h : map_to mapFail page frame flags m = some m2) :
    mapped_preserved m m2 := by
  intro p hp
  rw [(map_to_some h).1]
  by_cases hpp : p = page <;> simp [hpp, hp]

theorem map_binary_page_preserves (binary : List Nat)
    (alloc : Nat → Option Nat) (mapFail : Nat → Bool) (i : Nat)
    (m : Machine) :
    mapped_preserved m (out_state (map_binary_page binary alloc mapFail i m))
    ∧ (out_state (map_binary_page binary alloc mapFail i m)).switched =
        m.switched := by
  unfold map_binary_page
  split
  · exact ⟨fun p hp => hp, rfl⟩
  split
  · exact ⟨fun p hp => hp, rfl⟩
  rename_i m2 hm2
  have hpres : mapped_preserved m m2 := fun p hp =>
    map_to_preserves hm2 p hp
  have hsw : m2.switched = m.switched := (map_to_some hm2).2.2.2.2
  split
  · split
    · exact ⟨fun p hp => hpres p hp, hsw⟩
    · exact ⟨fun p hp => hpres p hp, hsw⟩
  · exact ⟨fun p hp => hpres p hp, hsw⟩

theorem map_binary_pages_preserves (binary : List Nat)
    (alloc : Nat → Option Nat) (mapFail : Nat → Bool) :
    ∀ (n i : Nat) (m : Machine),
      mapped_preserved m
        (out_state (map_binary_pages binary alloc mapFail i n m))
      ∧ (out_state (map_binary_pages binary alloc mapFail i n m)).switched =
          m.switched := by
  intro n
  induction n with
  | zero => exact fun i m => ⟨fun p hp => hp, rfl⟩
  | succ n ih =>
    intro i m
    simp only [map_binary_pages]
    cases hstep : map_binary_page binary alloc mapFail i m with
    | ok m2 =>
      have hs := map_binary_page_preserves binary alloc mapFail i m
      rw [hstep] at hs
      exact ⟨mapped_preserved_trans hs.1 (ih (i + 1) m2).1,
        (ih (i + 1) m2).2.trans hs.2⟩
    | err s m2 =>
      have hs := map_binary_page_preserves binary alloc mapFail i m
      rw [hstep] at hs
      exact hs
    | panicked s m2 =>
      have hs := map_binary_page_preserves binary alloc mapFail i m
      rw [hstep] at hs
      exact hs

theorem set_readonly_pages_preserves :
    ∀ (n i : Nat) (m : Machine),
      mapped_preserved m (out_state (set_readonly_pages i n m))
      ∧ (out_state (set_readonly_pages i n m)).switched = m.switched := by
  intro n
  induction n with
  | zero => exact fun i m => ⟨fun p hp => hp, rfl⟩
  | succ n ih =>
    intro i m
    simp only [set_readonly_pages]
    cases hupd : update_flags (USER_CODE_START + i * 4096) readonly_flags m
      with
    | some m2 =>
      obtain ⟨uf, _, _, _, usw⟩ := update_flags_some hupd
      have hstep : mapped_preserved m m2 := by
        intro p hp
        rw [uf]
        by_cases hpp : p = USER_CODE_START + i * 4096 <;> simp [hpp, hp]
      exact ⟨mapped_preserved_trans hstep (ih (i + 1) m2).1,
        (ih (i + 1) m2).2.trans usw⟩
    | none => exact ⟨fun p hp => hp, rfl⟩

theorem map_stack_page_preserves (alloc : Nat → Option Nat)
    (mapFail : Nat → Bool) (i : Nat) (m : Machine) :
    mapped_preserved m (out_state (map_stack_page alloc mapFail i m))
    ∧ (out_state (map_stack_page alloc mapFail i m)).switched = m.switched
    := by
  unfold map_stack_page
  split
  · exact ⟨fun p hp => hp, rfl⟩
  split
  · exact ⟨fun p hp => hp, rfl⟩
  rename_i m2 hm2
  exact ⟨fun p hp => map_to_preserves hm2 p hp,
    (map_to_some hm2).2.2.2.2⟩

theorem map_stack_pages_preserves (alloc : Nat → Option Nat)
    (mapFail : Nat → Bool) :
    ∀ (n i : Nat) (m : Machine),
      mapped_preserved m (out_state (map_stack_pages alloc mapFail i n m))
      ∧ (out_state (map_stack_pages alloc mapFail i n m)).switched =
          m.switched := by
  intro n
  induction n with
  | zero => exact fun i m => ⟨fun p hp => hp, rfl⟩
  | succ n ih =>
    intro i m
    simp only [map_stack_pages]
    cases hstep : map_stack_page alloc mapFail i m with
    | ok m2 =>
      have hs := map_stack_page_preserves alloc mapFail i m
      rw [hstep] at hs
      exact ⟨mapped_preserved_trans hs.1 (ih (i + 1) m2).1,
        (ih (i + 1) m2).2.trans hs.2⟩
    | err s m2 =>
      have hs := map_stack_page_preserves alloc mapFail i m
      rw [hstep] at hs
      exact hs
    | panicked s m2 =>
      have hs := map_stack_page_preserves alloc mapFail i m
      rw [hstep] at hs
      exact hs

theorem map_user_binary_preserves (binary : List Nat) (readonly_size : Nat)
    (alloc : Nat → Option Nat) (mapFail : Nat → Bool) (m : Machine) :
    mapped_preserved m
      (out_state (map_user_binary binary readonly_size alloc mapFail m))
    ∧ (out_state
        (map_user_binary binary readonly_size alloc mapFail m)).switched =
        m.switched := by
  unfold map_user_binary
  split
  · exact ⟨fun p hp => hp, rfl⟩
  cases hp1 : map_binary_pages binary alloc mapFail 0
      ((binary.length + 4095) / 4096) m with
  | ok m1 =>
    have h1 := map_binary_pages_preserves binary alloc mapFail
      ((binary.length + 4095) / 4096) 0 m
    rw [hp1] at h1
    have h2 := set_readonly_pages_preserves
      (min (readonly_size / 4096) ((binary.length + 4095) / 4096)) 0 m1
    exact ⟨mapped_preserved_trans h1.1 h2.1, h2.2.trans h1.2⟩
  | err s m1 =>
    have h1 := map_binary_pages_preserves binary alloc mapFail
      ((binary.length + 4095) / 4096) 0 m
    rw [hp1] at h1
    exact h1
  | panicked s m1 =>
    have h1 := map_binary_pages_preserves binary alloc mapFail
      ((binary.length + 4095) / 4096) 0 m
    rw [hp1] at h1
    exact h1

/-- The machine at kernel boot: nothing mapped in the model, allocator cursor
at zero, no privilege transition performed. -/
def initMachine : Machine :=
  ⟨fun _ => none, fun _ => none, fun _ => 0, 0, false⟩

/-- An `Err` from `run` leaves the `switched` flag unchanged and keeps every
page mapped before the call mapped; an `Ok` has `switched = true`.  Used by
the C4 theorem. -/
theorem run_err_state (binary : List Nat) (readonly_size : Nat)
    (alloc : Nat → Option Nat) (mapFail : Nat → Bool) (m : Machine) :
    ∀ e m', run binary readonly_size alloc mapFail m = .err e m' →
      m'.switched = m.switched ∧ mapped_preserved m m' := by
  intro e m' h
  unfold run at h
  split at h
  · rename_i m1 hbin
    have hbinp := map_user_binary_preserves binary readonly_size alloc
      mapFail m
    rw [hbin] at hbinp
    simp only [out_state] at hbinp
    split at h
    · exact Outcome.noConfusion h
    · unfold map_user_stack at h
      have hstkp := map_stack_pages_preserves alloc mapFail
        (USER_STACK_SIZE / 4096) 0 m1
      rw [h] at hstkp
      simp only [out_state] at hstkp
      exact ⟨hstkp.2.trans hbinp.2, mapped_preserved_trans hbinp.1 hstkp.1⟩
  · have hbinp := map_user_binary_preserves binary readonly_size alloc
      mapFail m
    rw [h] at hbinp
    simp only [out_state] at hbinp
    exact ⟨hbinp.2, hbinp.1⟩

/-- `run` returns `Ok` only with the privilege transition performed. -/
theorem run_ok_switched (binary : List Nat) (readonly_size : Nat)
    (alloc : Nat → Option Nat) (mapFail : Nat → Bool) (m : Machine) :
    ∀ m', run binary readonly_size alloc mapFail m = .ok m' →
      m'.switched = true := by
  intro m' h
  unfold run at h
  split at h
  · rename_i m1 hbin
    split at h
    · injection h with h1
      subst h1
      rfl
    · rename_i hy
      exact absurd h (by intro hc; exact hy m' hc)
  · rename_i hy
    exact absurd h (by intro hc; exact hy m' hc)

/-! ### Error-state characterization for C4's no-rollback conjunct: a failed
iteration returns exactly the state built so far (cursor advanced once more
by the failed `allocate_frame` / `map_to`), with every page mapped by the
earlier iterations still mapped -/

/-- Both error exits of a phase-1 iteration return the input state with only
the allocator cursor advanced: no page is mapped or unmapped. -/
theorem map_binary_page_err {binary : List Nat} {alloc : Nat → Option Nat}
    {mapFail : Nat → Bool} {i : Nat} {m : Machine} {e : String}
    {m' : Machine}
    (h : map_binary_page binary alloc mapFail i m = .err e m') :
    m'.pageFlags = m.pageFlags ∧ m'.cursor = m.cursor + 1
    ∧ m'.switched = m.switched := by
  unfold map_binary_page at h
  split at h
  · injection h with h1 h2
    subst h2
    exact ⟨rfl, rfl, rfl⟩
  split at h
  · injection h with h1 h2
    subst h2
    exact ⟨rfl, rfl, rfl⟩
  split at h
  · split at h
    · exact Outcome.noConfusion h
    · exact Outcome.noConfusion h
  · exact Outcome.noConfusion h

/-- A failed phase-1 loop failed at some iteration `i + j`: the `j` pages
mapped by the earlier iterations are still mapped (writable) in the returned
error state, nothing else changed, and the cursor counts the `j` successful
allocations plus the failed one. -/
theorem map_binary_pages_err {binary : List Nat} {alloc : Nat → Option Nat}
    {mapFail : Nat → Bool} :
    ∀ (n i : Nat) (m m' : Machine) (e : String),
      map_binary_pages binary alloc mapFail i n m = .err e m' →
      ∃ j, j < n
        ∧ (∀ k, i ≤ k → k < i + j →
            m'.pageFlags (USER_CODE_START + k * 4096) = some writable_flags)
        ∧ (∀ p, (∀ k, i ≤ k → k < i + j → p ≠ USER_CODE_START + k * 4096) →
            m'.pageFlags p = m.pageFlags p)
        ∧ m'.cursor = m.cursor + j + 1
        ∧ m'.switched = m.switched := by
  intro n
  induction n with
  | zero =>
    intro i m m' e h
    exact Outcome.noConfusion h
  | succ n ih =>
    intro i m m' e h
    simp only [map_binary_pages] at h
    split at h
    · rename_i m2 hstep
      obtain ⟨j, hj, ja, jb, jc, jd⟩ := ih (i + 1) m2 m' e h
      obtain ⟨sf, sfr, spres, smemin, smemout, scur, ssw⟩ :=
        map_binary_page_ok hstep
      refine ⟨j + 1, by omega, ?_, ?_, ?_, ?_⟩
      · intro k hk1 hk2
        by_cases hki : k = i
        · subst hki
          rw [jb (USER_CODE_START + k * 4096) (fun k' h1' h2' => by omega),
            sf]
        · exact ja k (by omega) (by omega)
      · intro p hp
        rw [jb p (fun k h1 h2 => hp k (by omega) (by omega)),
          (spres p (hp i (by omega) (by omega))).1]
      · rw [jc, scur]
        omega
      · rw [jd, ssw]
    · obtain ⟨hf, hc, hs⟩ := map_binary_page_err h
      exact ⟨0, by omega, fun k hk1 hk2 => by omega,
        fun p hp => by rw [hf], by omega, hs⟩

/-- One successful stack-mapping iteration: the stack page is mapped
writable, other pages untouched, the cursor advanced once. -/
theorem map_stack_page_ok {alloc : Nat → Option Nat} {mapFail : Nat → Bool}
    {i : Nat} {m m' : Machine}
    (h : map_stack_page alloc mapFail i m = .ok m') :
    m'.pageFlags (USER_STACK_BOTTOM + i * 4096) = some writable_flags
    ∧ (∀ p, p ≠ USER_STACK_BOTTOM + i * 4096 →
        m'.pageFlags p = m.pageFlags p)
    ∧ m'.cursor = m.cursor + 1
    ∧ m'.switched = m.switched := by
  unfold map_stack_page at h
  split at h
  · exact Outcome.noConfusion h
  split at h
  · exact Outcome.noConfusion h
  rename_i m2 hm2
  obtain ⟨hf, hfr, hmem, hcur, hsw⟩ := map_to_some hm2
  injection h with h
  subst h
  refine ⟨?_, ?_, ?_, ?_⟩
  · simp [hf]
  · intro p hp
    simp [hf, hp]
  · simp [hcur]
  · simp [hsw]

/-- Both error exits of a stack-mapping iteration return the input state
with only the allocator cursor advanced. -/
theorem map_stack_page_err {alloc : Nat → Option Nat} {mapFail : Nat → Bool}
    {i : Nat} {m : Machine} {e : String} {m' : Machine}
    (h : map_stack_page alloc mapFail i m = .err e m') :
    m'.pageFlags = m.pageFlags ∧ m'.cursor = m.cursor + 1
    ∧ m'.switched = m.switched := by
  unfold map_stack_page at h
  split at h
  · injection h with h1 h2
    subst h2
    exact ⟨rfl, rfl, rfl⟩
  split at h
  · injection h with h1 h2
    subst h2
    exact ⟨rfl, rfl, rfl⟩
  · exact Outcome.noConfusion h

/-- A failed stack-mapping loop failed at some iteration `i + t`: the `t`
stack pages mapped before are still mapped (writable) in the error state,
nothing else changed, and the cursor counts them plus the failed call. -/
theorem map_stack_pages_err {alloc : Nat → Option Nat}
    {mapFail : Nat → Bool} :
    ∀ (n i : Nat) (m m' : Machine) (e : String),
      map_stack_pages alloc mapFail i n m = .err e m' →
      ∃ t, t < n
        ∧ (∀ k, i ≤ k → k < i + t →
            m'.pageFlags (USER_STACK_BOTTOM + k * 4096) =
              some writable_flags)
        ∧ (∀ p, (∀ k, i ≤ k → k < i + t →
            p ≠ USER_STACK_BOTTOM + k * 4096) →
            m'.pageFlags p = m.pageFlags p)
        ∧ m'.cursor = m.cursor + t + 1
        ∧ m'.switched = m.switched := by
  intro n
  induction n with
  | zero =>
    intro i m m' e h
    exact Outcome.noConfusion h
  | succ n ih =>
    intro i m m' e h
    simp only [map_stack_pages] at h
    split at h
    · rename_i m2 hstep
      obtain ⟨t, ht, ta, tb, tc, td⟩ := ih (i + 1) m2 m' e h
      obtain ⟨sf, spres, scur, ssw⟩ := map_stack_page_ok hstep
      refine ⟨t + 1, by omega, ?_, ?_, ?_, ?_⟩
      · intro k hk1 hk2
        by_cases hki : k = i
        · subst hki
          rw [tb (USER_STACK_BOTTOM + k * 4096)
            (fun k' h1' h2' => by omega), sf]
        · exact ta k (by omega) (by omega)
      · intro p hp
        rw [tb p (fun k h1 h2 => hp k (by omega) (by omega)),
          spres p (hp i (by omega) (by omega))]
      · rw [tc, scur]
        omega
      · rw [td, ssw]
    · obtain ⟨hf, hc, hs⟩ := map_stack_page_err h
      exact ⟨0, by omega, fun k hk1 hk2 => by omega,
        fun p hp => by rw [hf], by omega, hs⟩

/-- Phase 2 cannot fail when its target pages are mapped — which phase 1
guarantees — so a `map_user_binary` error always comes from phase 1. -/
theorem set_readonly_pages_ok_exists :
    ∀ (n i : Nat) (m : Machine),
      (∀ k, i ≤ k → k < i + n →
        (m.pageFlags (USER_CODE_START + k * 4096)).isSome = true) →
      ∃ m2, set_readonly_pages i n m = .ok m2 := by
  intro n
  induction n with
  | zero =>
    intro i m _
    exact ⟨m, rfl⟩
  | succ n ih =>
    intro i m hmap
    have hi : (m.pageFlags (USER_CODE_START + i * 4096)).isSome = true :=
      hmap i (by omega) (by omega)
    cases hupd : update_flags (USER_CODE_START + i * 4096) readonly_flags m
      with
    | none =>
      unfold update_flags at hupd
      split at hupd
      · exact Option.noConfusion hupd
      · rename_i hcond
        exact absurd hi hcond
    | some mu =>
      obtain ⟨uf, -, -, -, -⟩ := update_flags_some hupd
      have hnext : ∀ k, i + 1 ≤ k → k < i + 1 + n →
          (mu.pageFlags (USER_CODE_START + k * 4096)).isSome = true := by
        intro k hk1 hk2
        simp only [uf]
        by_cases hk : USER_CODE_START + k * 4096 = USER_CODE_START + i * 4096
        · rw [if_pos hk]
          rfl
        · rw [if_neg hk]
          exact hmap k (by omega) (by omega)
      obtain ⟨m2, hm2⟩ := ih (i + 1) mu hnext
      refine ⟨m2, ?_⟩
      simp only [set_readonly_pages]
      rw [hupd]
      exact hm2

/-- A failed `map_user_binary` failed in phase 1 at some page `j`: the `j`
pages it mapped first are still mapped writable in the error state, nothing
else changed, and the cursor counts them plus the failed call. -/
theorem map_user_binary_err {binary : List Nat} {readonly_size : Nat}
    {alloc : Nat → Option Nat} {mapFail : Nat → Bool} {m : Machine}
    {e : String} {m' : Machine}
    (h : map_user_binary binary readonly_size alloc mapFail m = .err e m') :
    ∃ j, j < (binary.length + 4095) / 4096
      ∧ (∀ k, k < j →
          m'.pageFlags (USER_CODE_START + k * 4096) = some writable_flags)
      ∧ (∀ p, (∀ k, k < j → p ≠ USER_CODE_START + k * 4096) →
          m'.pageFlags p = m.pageFlags p)
      ∧ m'.cursor = m.cursor + j + 1
      ∧ m'.switched = m.switched := by
  unfold map_user_binary at h
  split at h
  · exact Outcome.noConfusion h
  split at h
  · rename_i m1 hp1
    exfalso
    obtain ⟨pA, pB, pC, pD, pE, pF⟩ :=
      map_binary_pages_ok ((binary.length + 4095) / 4096) 0 m m1 hp1
    have hmapped : ∀ k, 0 ≤ k →
        k < 0 + min (readonly_size / 4096) ((binary.length + 4095) / 4096) →
        (m1.pageFlags (USER_CODE_START + k * 4096)).isSome = true := by
      intro k hk1 hk2
      rw [(pA k (by omega) (by omega)).1]
      rfl
    obtain ⟨m2, hm2⟩ := set_readonly_pages_ok_exists
      (min (readonly_size / 4096) ((binary.length + 4095) / 4096)) 0 m1
      hmapped
    rw [hm2] at h
    exact Outcome.noConfusion h
  · obtain ⟨j, hj, ja, jb, jc, jd⟩ :=
      map_binary_pages_err ((binary.length + 4095) / 4096) 0 m m' e h
    exact ⟨j, hj, fun k hk => ja k (by omega) (by omega),
      fun p hp => jb p (fun k h1 h2 => hp k (by omega)), jc, jd⟩

/-- C9: for every `readonly_size` that is not a multiple of 4096,
`map_user_binary` panics on its `assert!` with the state unchanged — before
mapping any page — and therefore `process::run` panics identically rather
than returning an `Err` value. -/
theorem C9_unaligned_readonly_panics (binary : List Nat)
    (readonly_size : Nat) (alloc : Nat → Option Nat) (mapFail : Nat → Bool)
    (m : Machine) (h : readonly_size % 4096 ≠ 0) :
    map_user_binary binary readonly_size alloc mapFail m =
      .panicked "readonly_size must be page-aligned" m
    ∧ run binary readonly_size alloc mapFail m =
      .panicked "readonly_size must be page-aligned" m
    ∧ ∀ e m', run binary readonly_size alloc mapFail m ≠ .err e m' := by
  have h1 : map_user_binary binary readonly_size alloc mapFail m =
      .panicked "readonly_size must be page-aligned" m := by
    unfold map_user_binary
    rw [if_pos h]
  have h2 : run binary readonly_size alloc mapFail m =
      .panicked "readonly_size must be page-aligned" m := by
    unfold run
    rw [h1]
  refine ⟨h1, h2, ?_⟩
  intro e m' hcontra
  rw [h2] at hcontra
  exact Outcome.noConfusion hcontra

/-- Witness for C9 at the concrete unaligned `readonly_size = 1`. -/
theorem C9_unaligned_readonly_panics_witness :
    ((1 : Nat) % 4096 ≠ 0) ∧
      map_user_binary [5] 1 (fun n => some (4096 * n)) (fun _ => false)
        initMachine = .panicked "readonly_size must be page-aligned"
          initMachine ∧
      run [5] 1 (fun n => some (4096 * n)) (fun _ => false) initMachine =
        .panicked "readonly_size must be page-aligned" initMachine :=
  ⟨by decide,
    (C9_unaligned_readonly_panics [5] 1 (fun n => some (4096 * n))
      (fun _ => false) initMachine (by decide)).1,
    (C9_unaligned_readonly_panics [5] 1 (fun n => some (4096 * n))
      (fun _ => false) initMachine (by decide)).2.1⟩

/-- A successful `map_user_binary` splits into a successful phase 1 followed
by a successful phase 2, and implies the `assert!` passed. -/
theorem map_user_binary_ok_split {binary : List Nat} {readonly_size : Nat}
    {alloc : Nat → Option Nat} {mapFail : Nat → Bool} {m : Machine}
    (hok : isOk (map_user_binary binary readonly_size alloc mapFail m) =
      true) :
    readonly_size % 4096 = 0 ∧
    ∃ m1, map_binary_pages binary alloc mapFail 0
        ((binary.length + 4095) / 4096) m = .ok m1
      ∧ set_readonly_pages 0
          (min (readonly_size / 4096) ((binary.length + 4095) / 4096)) m1 =
        .ok (out_state
          (map_user_binary binary readonly_size alloc mapFail m)) := by
  have hex : ∃ m', map_user_binary binary readonly_size alloc mapFail m =
      .ok m' := by
    cases hmub : map_user_binary binary readonly_size alloc mapFail m with
    | ok m' => exact ⟨m', rfl⟩
    | err s m' =>
      rw [hmub] at hok
      simp [isOk] at hok
    | panicked s m' =>
      rw [hmub] at hok
      simp [isOk] at hok
  obtain ⟨m', hmub⟩ := hex
  rw [hmub]
  simp only [out_state]
  unfold map_user_binary at hmub
  split at hmub
  · exact Outcome.noConfusion hmub
  rename_i halign
  split at hmub
  · rename_i m1 hp1
    exact ⟨by omega, m1, hp1, hmub⟩
  · rename_i hy
    exact absurd hmub (by intro hc; exact hy m' hc)

/-- On an `Err` from `run`, the error state maps exactly the pre-call pages
plus `nb` binary pages (writable, or read-only after phase 2) and `ns` stack
pages (writable), where `nb + ns` is pinned to the number of successful
`allocate_frame` calls by the cursor equation — the pages the loader mapped
before the failure are still mapped, so no rollback happened. -/
theorem run_err_no_rollback (binary : List Nat) (readonly_size : Nat)
    (alloc : Nat → Option Nat) (mapFail : Nat → Bool) (m : Machine) :
    ∀ e m', run binary readonly_size alloc mapFail m = .err e m' →
      ∃ nb ns,
        (∀ k, k < nb →
          m'.pageFlags (USER_CODE_START + k * 4096) = some writable_flags ∨
          m'.pageFlags (USER_CODE_START + k * 4096) = some readonly_flags)
        ∧ (∀ k, k < ns →
            m'.pageFlags (USER_STACK_BOTTOM + k * 4096) =
              some writable_flags)
        ∧ (∀ p, (∀ k, k < nb → p ≠ USER_CODE_START + k * 4096) →
            (∀ k, k < ns → p ≠ USER_STACK_BOTTOM + k * 4096) →
            m'.pageFlags p = m.pageFlags p)
        ∧ m'.cursor = m.cursor + (nb + ns) + 1 := by
  intro e m' h
  unfold run at h
  split at h
  · rename_i m1 hbin
    split at h
    · exact Outcome.noConfusion h
    · unfold map_user_stack at h
      obtain ⟨t, ht, ta, tb, tc, td⟩ :=
        map_stack_pages_err (USER_STACK_SIZE / 4096) 0 m1 m' e h
      have hok : isOk (map_user_binary binary readonly_size alloc mapFail m)
          = true := by
        rw [hbin]
        rfl
      obtain ⟨-, m0, hp1, hp2⟩ := map_user_binary_ok_split hok
      rw [hbin] at hp2
      simp only [out_state] at hp2
      obtain ⟨pA, pB, pC, pD, pE, pF⟩ :=
        map_binary_pages_ok ((binary.length + 4095) / 4096) 0 m m0 hp1
      obtain ⟨qA, qB, qC, qD, qE, qF⟩ :=
        set_readonly_pages_ok
          (min (readonly_size / 4096) ((binary.length + 4095) / 4096))
          0 m0 m1 hp2
      refine ⟨(binary.length + 4095) / 4096, t, ?_, ?_, ?_, ?_⟩
      · intro k hk
        by_cases hcol : ∃ k2, k2 < t ∧
            USER_CODE_START + k * 4096 = USER_STACK_BOTTOM + k2 * 4096
        · obtain ⟨k2, hk2, heq⟩ := hcol
          rw [heq]
          exact Or.inl (ta k2 (by omega) (by omega))
        · rw [tb (USER_CODE_START + k * 4096) (fun k2 h1 h2 => by
            intro hEq
            exact hcol ⟨k2, by omega, hEq⟩)]
          by_cases hro : k <
              min (readonly_size / 4096) ((binary.length + 4095) / 4096)
          · exact Or.inr (qA k (by omega) (by omega))
          · rw [qB (USER_CODE_START + k * 4096) (fun k2 h1 h2 => by omega)]
            exact Or.inl (pA k (by omega) (by omega)).1
      · intro k hk
        exact ta k (by omega) (by omega)
      · intro p hpB hpS
        rw [tb p (fun k2 h1 h2 => hpS k2 (by omega)),
          qB p (fun k2 h1 h2 => hpB k2 (by omega)),
          (pB p (fun k2 h1 h2 => hpB k2 (by omega))).1]
      · rw [tc, qE, pE]
        omega
  · obtain ⟨j, hj, ja, jb, jc, jd⟩ := map_user_binary_err h
    refine ⟨j, 0, ?_, ?_, ?_, ?_⟩
    · intro k hk
      exact Or.inl (ja k hk)
    · intro k hk
      exact absurd hk (by omega)
    · intro p hpB hpS
      exact jb p hpB
    · rw [jc]
      omega

/-- C4: for every binary, `readonly_size`, allocator and mapper behaviour,
if `process::run` returns an `Err` (which carries a `String` description),
the privilege transition has not occurred during the call (`switched` is
unchanged), every page mapped before the call is still mapped, and the pages
the loader itself mapped before the failure are also still mapped — no
rollback: the error state consists of the pre-call mappings plus `nb` binary
pages and `ns` stack pages with the loader's flags, where `nb + ns + 1`
accounts for every `allocate_frame` call made (so a loader that unmapped its
partial work on failure would falsify the conjunction).  `run` returns `Ok`
only with the privilege transition performed (`switched = true`), i.e. only
after `switch_to_user_mode` has returned control to it. -/
theorem C4_failure_aborts_before_transition (binary : List Nat)
    (readonly_size : Nat) (alloc : Nat → Option Nat) (mapFail : Nat → Bool)
    (m : Machine) :
    (∀ e m', run binary readonly_size alloc mapFail m = .err e m' →
      m'.switched = m.switched ∧ mapped_preserved m m'
      ∧ ∃ nb ns,
          (∀ k, k < nb →
            m'.pageFlags (USER_CODE_START + k * 4096) =
              some writable_flags ∨
            m'.pageFlags (USER_CODE_START + k * 4096) =
              some readonly_flags)
          ∧ (∀ k, k < ns →
              m'.pageFlags (USER_STACK_BOTTOM + k * 4096) =
                some writable_flags)
          ∧ (∀ p, (∀ k, k < nb → p ≠ USER_CODE_START + k * 4096) →
              (∀ k, k < ns → p ≠ USER_STACK_BOTTOM + k * 4096) →
              m'.pageFlags p = m.pageFlags p)
          ∧ m'.cursor = m.cursor + (nb + ns) + 1)
    ∧ (∀ m', run binary readonly_size alloc mapFail m = .ok m' →
      m'.switched = true) :=
  ⟨fun e m' h =>
    ⟨(run_err_state binary readonly_size alloc mapFail m e m' h).1,
      (run_err_state binary readonly_size alloc mapFail m e m' h).2,
      run_err_no_rollback binary readonly_size alloc mapFail m e m' h⟩,
    run_ok_switched binary readonly_size alloc mapFail m⟩

/-- An allocator whose first call succeeds and whose later calls fail: the
loader maps binary page 0, then fails on the first stack page. -/
def c4_alloc : Nat → Option Nat := fun n => if n = 0 then some 0 else none

/-- The error state of `run` on the one-byte binary `[7]` under `c4_alloc`. -/
def c4_err_state : Machine :=
  out_state (run [7] 0 c4_alloc (fun _ => false) initMachine)

/-- Witness for C4, exercising the no-rollback conjunct non-vacuously: the
loader maps binary page 0, the first stack allocation fails, and in the
returned error state binary page 0 is still mapped writable with the cursor
at 2 (one successful and one failed allocation). -/
theorem C4_failure_aborts_before_transition_witness :
    run [7] 0 c4_alloc (fun _ => false) initMachine =
      .err "failed to allocate frame for user stack" c4_err_state ∧
    (c4_err_state.pageFlags (USER_CODE_START + 0 * 4096) =
        some writable_flags ∧
      c4_err_state.cursor = 2) ∧
    (c4_err_state.switched = initMachine.switched ∧
      mapped_preserved initMachine c4_err_state
      ∧ ∃ nb ns,
          (∀ k, k < nb →
            c4_err_state.pageFlags (USER_CODE_START + k * 4096) =
              some writable_flags ∨
            c4_err_state.pageFlags (USER_CODE_START + k * 4096) =
              some readonly_flags)
          ∧ (∀ k, k < ns →
              c4_err_state.pageFlags (USER_STACK_BOTTOM + k * 4096) =
                some writable_flags)
          ∧ (∀ p, (∀ k, k < nb → p ≠ USER_CODE_START + k * 4096) →
              (∀ k, k < ns → p ≠ USER_STACK_BOTTOM + k * 4096) →
              c4_err_state.pageFlags p = initMachine.pageFlags p)
          ∧ c4_err_state.cursor = initMachine.cursor + (nb + ns) + 1) :=
  ⟨rfl, ⟨rfl, rfl⟩,
    (C4_failure_aborts_before_transition [7] 0 c4_alloc (fun _ => false)
      initMachine).1 "failed to allocate frame for user stack" c4_err_state
      rfl⟩

/-- C1: for every binary and page-aligned `readonly_size` at most the
page-rounded binary size, after a successful `map_user_binary` the pages of
index `k < readonly_size / 4096` carry flags
`PRESENT | USER_ACCESSIBLE` (no `WRITABLE`), the remaining pages up to
`ceil(len/4096)` carry `PRESENT | WRITABLE | USER_ACCESSIBLE`, exactly
`ceil(len/4096)` pages of the binary region are mapped, and pages past that
count are untouched. -/
theorem C1_wx_page_permissions (binary : List Nat) (readonly_size : Nat)
    (alloc : Nat → Option Nat) (mapFail : Nat → Bool) (m : Machine)
    (halign : readonly_size % 4096 = 0)
    (hro : readonly_size ≤ ((binary.length + 4095) / 4096) * 4096)
    (hok : isOk (map_user_binary binary readonly_size alloc mapFail m) =
      true) :
    (∀ k, k < readonly_size / 4096 →
      (out_state
        (map_user_binary binary readonly_size alloc mapFail m)).pageFlags
          (USER_CODE_START + k * 4096) = some (PRESENT ||| USER_ACCESSIBLE))
    ∧ (∀ k, readonly_size / 4096 ≤ k → k < (binary.length + 4095) / 4096 →
      (out_state
        (map_user_binary binary readonly_size alloc mapFail m)).pageFlags
          (USER_CODE_START + k * 4096) =
        some (PRESENT ||| WRITABLE ||| USER_ACCESSIBLE))
    ∧ (List.range ((binary.length + 4095) / 4096)).countP (fun k =>
        ((out_state
          (map_user_binary binary readonly_size alloc mapFail m)).pageFlags
            (USER_CODE_START + k * 4096)).isSome) =
        (binary.length + 4095) / 4096
    ∧ (∀ k, (binary.length + 4095) / 4096 ≤ k →
      (out_state
        (map_user_binary binary readonly_size alloc mapFail m)).pageFlags
          (USER_CODE_START + k * 4096) =
        m.pageFlags (USER_CODE_START + k * 4096)) := by
  obtain ⟨-, m1, hp1, hp2⟩ := map_user_binary_ok_split hok
  obtain ⟨pA, pB, pC, pD, pE, pF⟩ :=
    map_binary_pages_ok ((binary.length + 4095) / 4096) 0 m m1 hp1
  obtain ⟨qA, qB, qC, qD, qE, qF⟩ :=
    set_readonly_pages_ok
      (min (readonly_size / 4096) ((binary.length + 4095) / 4096)) 0 m1 _ hp2
  have hrp : readonly_size / 4096 ≤ (binary.length + 4095) / 4096 := by
    omega
  have ha : ∀ k, k < readonly_size / 4096 →
      (out_state
        (map_user_binary binary readonly_size alloc mapFail m)).pageFlags
          (USER_CODE_START + k * 4096) = some readonly_flags :=
    fun k hk => qA k (by omega) (by omega)
  have hb : ∀ k, readonly_size / 4096 ≤ k →
      k < (binary.length + 4095) / 4096 →
      (out_state
        (map_user_binary binary readonly_size alloc mapFail m)).pageFlags
          (USER_CODE_START + k * 4096) = some writable_flags := by
    intro k hk1 hk2
    rw [qB (USER_CODE_START + k * 4096) (fun k' h1' h2' => by omega)]
    exact (pA k (by omega) (by omega)).1
  refine ⟨ha, hb, ?_, ?_⟩
  · have hcnt : (List.range ((binary.length + 4095) / 4096)).countP (fun k =>
        ((out_state
          (map_user_binary binary readonly_size alloc mapFail m)).pageFlags
            (USER_CODE_START + k * 4096)).isSome) =
        (List.range ((binary.length + 4095) / 4096)).length := by
      rw [List.countP_eq_length]
      intro k hkmem
      have hk := List.mem_range.1 hkmem
      by_cases hkrp : k < readonly_size / 4096
      · have := ha k hkrp
        simp [this]
      · have := hb k (by omega) (by omega)
        simp [this]
    rw [hcnt, List.length_range]
  · intro k hk
    rw [qB (USER_CODE_START + k * 4096) (fun k' h1' h2' => by omega)]
    exact (pB (USER_CODE_START + k * 4096) (fun k' h1' h2' => by omega)).1

/-- Witness for C1 with the one-byte binary `[5]` and
`readonly_size = 4096` (the single page read-only): the hypotheses hold by
evaluation and page 0 ends up `PRESENT | USER_ACCESSIBLE`. -/
theorem C1_wx_page_permissions_witness :
    ((4096 : Nat) % 4096 = 0 ∧
      (4096 : Nat) ≤ (([5] : List Nat).length + 4095) / 4096 * 4096 ∧
      isOk (map_user_binary [5] 4096 (fun _ => some 0) (fun _ => false)
        initMachine) = true) ∧
    (out_state (map_user_binary [5] 4096 (fun _ => some 0) (fun _ => false)
      initMachine)).pageFlags (USER_CODE_START + 0 * 4096) =
      some (PRESENT ||| USER_ACCESSIBLE) :=
  ⟨⟨by decide, by decide, rfl⟩,
    (C1_wx_page_permissions [5] 4096 (fun _ => some 0) (fun _ => false)
      initMachine (by decide) (by decide) rfl).1 0 (by decide)⟩

/-- C6: after a successful load, phase 1 mapped every page spanning the
binary as `PRESENT | WRITABLE | USER_ACCESSIBLE` onto the frames the
allocator produced one per page (fresh by C5), and in the final state the
byte at `USER_CODE_START + i` equals `binary[i]` for `i < len` and `0` from
`len` to the end of the last mapped page. -/
theorem C6_binary_copied_and_zero_filled (binary : List Nat)
    (readonly_size : Nat) (alloc : Nat → Option Nat) (mapFail : Nat → Bool)
    (m : Machine)
    (hok : isOk (map_user_binary binary readonly_size alloc mapFail m) =
      true) :
    (∀ k, k < (binary.length + 4095) / 4096 →
      (out_state (map_binary_pages binary alloc mapFail 0
          ((binary.length + 4095) / 4096) m)).pageFlags
        (USER_CODE_START + k * 4096) =
          some (PRESENT ||| WRITABLE ||| USER_ACCESSIBLE)
      ∧ (out_state (map_binary_pages binary alloc mapFail 0
          ((binary.length + 4095) / 4096) m)).pageFrame
        (USER_CODE_START + k * 4096) = alloc (m.cursor + k))
    ∧ (∀ i, i < binary.length →
      (out_state (map_user_binary binary readonly_size alloc mapFail
        m)).mem (USER_CODE_START + i) = binary.getD i 0)
    ∧ (∀ i, binary.length ≤ i →
        i < ((binary.length + 4095) / 4096) * 4096 →
      (out_state (map_user_binary binary readonly_size alloc mapFail
        m)).mem (USER_CODE_START + i) = 0) := by
  obtain ⟨-, m1, hp1, hp2⟩ := map_user_binary_ok_split hok
  obtain ⟨pA, pB, pC, pD, pE, pF⟩ :=
    map_binary_pages_ok ((binary.length + 4095) / 4096) 0 m m1 hp1
  obtain ⟨qA, qB, qC, qD, qE, qF⟩ :=
    set_readonly_pages_ok
      (min (readonly_size / 4096) ((binary.length + 4095) / 4096)) 0 m1 _ hp2
  refine ⟨?_, ?_, ?_⟩
  · intro k hk
    rw [hp1]
    simp only [out_state]
    have hpk := pA k (by omega) (by omega)
    refine ⟨hpk.1, ?_⟩
    rw [hpk.2]
    have hkk : m.cursor + (k - 0) = m.cursor + k := by omega
    rw [hkk]
  · intro i hi
    rw [qD]
    rw [pC (USER_CODE_START + i) (by omega) (by omega)]
    have hidx : USER_CODE_START + i - USER_CODE_START = i := by omega
    rw [hidx]
  · intro i hi1 hi2
    rw [qD]
    rw [pC (USER_CODE_START + i) (by omega) (by omega)]
    have hidx : USER_CODE_START + i - USER_CODE_START = i := by omega
    rw [hidx]
    exact List.getD_eq_default _ _ (by omega)

/-- Witness for C6 with the two-byte binary `[7, 9]` and no read-only
region: byte 0 of the loaded image is `7` and byte 2 (past the binary, still
in the first page) is `0`. -/
theorem C6_binary_copied_and_zero_filled_witness :
    (isOk (map_user_binary [7, 9] 0 (fun n => some (4096 * n + 8192))
      (fun _ => false) initMachine) = true) ∧
    (out_state (map_user_binary [7, 9] 0 (fun n => some (4096 * n + 8192))
      (fun _ => false) initMachine)).mem (USER_CODE_START + 0) =
      ([7, 9] : List Nat).getD 0 0 ∧
    (out_state (map_user_binary [7, 9] 0 (fun n => some (4096 * n + 8192))
      (fun _ => false) initMachine)).mem (USER_CODE_START + 2) = 0 :=
  ⟨rfl,
    (C6_binary_copied_and_zero_filled [7, 9] 0
      (fun n => some (4096 * n + 8192)) (fun _ => false) initMachine
      rfl).2.1 0 (by decide),
    (C6_binary_copied_and_zero_filled [7, 9] 0
      (fun n => some (4096 * n + 8192)) (fun _ => false) initMachine
      rfl).2.2 2 (by decide) (by decide)⟩

/-! ### Interrupt table configuration (`src/interrupts.rs`, `src/gdt.rs`,
`src/userspace/syscall.rs`) -/

/-- `gdt::DOUBLE_FAULT_IST_INDEX` (`src/gdt.rs`, line 17). -/
def DOUBLE_FAULT_IST_INDEX : Nat := 0

/-- `interrupts::PIC_1_OFFSET`. -/
def PIC_1_OFFSET : Nat := 32

/-- `interrupts::PIC_2_OFFSET`. -/
def PIC_2_OFFSET : Nat := PIC_1_OFFSET + 8

/-- `InterruptIndex::Timer` discriminant. -/
def InterruptIndex_Timer : Nat := PIC_1_OFFSET

/-- `InterruptIndex::Keyboard` discriminant (next after `Timer`). -/
def InterruptIndex_Keyboard : Nat := PIC_1_OFFSET + 1

/-- One IDT entry: whether a handler is installed, the descriptor privilege
level (DPL; Ring 3 is `3`), and the IST stack index when one is assigned.
A fresh x86_64 entry is missing, with DPL `0` and no IST index. -/
structure IdtEntry where
  handler_set : Bool
  privilege_level : Nat
  stack_index : Option Nat
  deriving DecidableEq

/-- The entry value of `InterruptDescriptorTable::new()`. -/
def IdtEntry.missing : IdtEntry := ⟨false, 0, none⟩

/-- The interrupt descriptor table: vector number (0-255) to entry. -/
def InterruptDescriptorTable := Nat → IdtEntry

/-- `InterruptDescriptorTable::new()`. -/
def idt_new : InterruptDescriptorTable := fun _ => IdtEntry.missing

/-- `set_handler_fn` / `set_handler_addr` at a vector: installs a handler,
leaving DPL and IST index unchanged. -/
def set_handler (idt : InterruptDescriptorTable) (vector : Nat) :
    InterruptDescriptorTable :=
  fun v => if v = vector then { idt vector with handler_set := true }
    else idt v

/-- `set_stack_index` on the entry at `vector`. -/
def set_stack_index (idt : InterruptDescriptorTable) (vector index : Nat) :
    InterruptDescriptorTable :=
  fun v => if v = vector then { idt vector with stack_index := some index }
    else idt v

/-- `set_privilege_level` on the entry at `vector`. -/
def set_privilege_level (idt : InterruptDescriptorTable)
    (vector level : Nat) : InterruptDescriptorTable :=
  fun v => if v = vector then { idt vector with privilege_level := level }
    else idt v

/-- Embedding of the `IDT` static initializer (`src/interrupts.rs`, lines
50-68): breakpoint handler (vector 3), double-fault handler (vector 8) with
`set_stack_index(DOUBLE_FAULT_IST_INDEX)`, then timer (vector 32) and
keyboard (vector 33) handlers. -/
def IDT : InterruptDescriptorTable :=
  set_handler
    (set_handler
      (set_stack_index (set_handler (set_handler idt_new 3) 8) 8
        DOUBLE_FAULT_IST_INDEX)
      InterruptIndex_Timer)
    InterruptIndex_Keyboard

/-- Embedding of `register_syscall_handler` (`src/userspace/syscall.rs`,
lines 249-262): install the naked syscall entry at
`SYSCALL_INTERRUPT_INDEX` and set its privilege level to Ring 3. -/
def register_syscall_handler (idt : InterruptDescriptorTable) :
    InterruptDescriptorTable :=
  set_privilege_level (set_handler idt SYSCALL_INTERRUPT_INDEX)
    SYSCALL_INTERRUPT_INDEX 3

/-- Modelled from the spec: the boot wiring that applies
`register_syscall_handler` to the kernel's interrupt table before loading it
is not under `src/` (the crate root providing `self_rust_os::init` is absent
from the snapshot, and `register_syscall_handler` has no caller there).  Per
the spec, the "syscall vector [is] fixed at 0x80 with Ring-3 privilege so
user code may invoke it via a software interrupt", so the loaded table is
the `IDT` static with the syscall handler registered. -/
def boot_idt : InterruptDescriptorTable := register_syscall_handler IDT

/-- C8: in the interrupt table configuration, the double-fault vector 8 has
a handler with the dedicated IST stack index `0`
(`DOUBLE_FAULT_IST_INDEX`), and the syscall vector `0x80` has a handler with
privilege level Ring 3, so user-mode code may invoke it via `int 0x80`. -/
theorem C8_idt_double_fault_ist_and_syscall_ring3 :
    (boot_idt 8).handler_set = true
    ∧ (boot_idt 8).stack_index = some DOUBLE_FAULT_IST_INDEX
    ∧ DOUBLE_FAULT_IST_INDEX = 0
    ∧ (boot_idt SYSCALL_INTERRUPT_INDEX).handler_set = true
    ∧ (boot_idt SYSCALL_INTERRUPT_INDEX).privilege_level = 3
    ∧ SYSCALL_INTERRUPT_INDEX = 0x80 := by
  refine ⟨rfl, rfl, rfl, rfl, rfl, rfl⟩

end SelfRustOS
